import Mathlib

/-!
Shallow embedding of the PII detection and redaction engine of
`detector_full_candidate_name.py` (Project Guardian 2.0).

Strings are modelled as Lean `String` (operated on through their `List Char`
data), records as ordered association lists from field names to JSON-ish
values (string, integer number, or null).  Regex searches of the source are
modelled as executable functions on character lists: unanchored fixed-length
digit-run search, word-boundary-delimited run search, and index-quantified
existential matchers for the email and UPI patterns.  The one statement of
the source that can raise (subscripting a non-string value at the
given-name/surname masking step) is modelled with `Except Unit`.
-/

/-! ### Character classes (ASCII model of Python's `re` classes) -/

/-- A regex word character (`\w`): alphanumeric or underscore. -/
def wordCharB (c : Char) : Bool := c.isAlphanum || c == '_'

/-- Character class of the UPI pattern local part: `[a-zA-Z0-9._-]`. -/
def upiLocalClass (c : Char) : Bool :=
  c.isAlphanum || c == '.' || c == '_' || c == '-'

/-- Character class of the email pattern local part: `[A-Za-z0-9._%+-]`. -/
def emailLocalClass (c : Char) : Bool :=
  c.isAlphanum || c == '.' || c == '_' || c == '%' || c == '+' || c == '-'

/-- Character class of the email pattern domain part: `[A-Za-z0-9.-]`. -/
def emailDomainClass (c : Char) : Bool :=
  c.isAlphanum || c == '.' || c == '-'

/-- True when the optional character is absent (string edge) or not a
word character; this is the condition `\b` imposes on the neighbour of a
word character. -/
def optNotWord : Option Char → Bool
  | none => true
  | some c => !(wordCharB c)

/-- Python's `str.lower()` restricted to ASCII, done characterwise. -/
def lowerStr (s : String) : String := String.mk (s.data.map Char.toLower)

/-! ### Run searches modelling `re.search` -/

/-- The first `n` characters of `l` exist and all satisfy `p`. -/
def matchesRun (p : Char → Bool) (n : Nat) (l : List Char) : Bool :=
  decide (n ≤ l.length) && (l.take n).all p

/-- Leftmost unanchored `n`-character run of class `p` (models
`re.search(r"\d{n}", s)` for `p = isDigit`); returns the matched characters. -/
def searchRun (p : Char → Bool) (n : Nat) : List Char → Option (List Char)
  | [] => none
  | c :: cs =>
    if matchesRun p n (c :: cs) then some ((c :: cs).take n)
    else searchRun p n cs

/-- Auxiliary for `searchBRun`, carrying the character preceding the
current position. -/
def searchBRunAux (p : Char → Bool) (n : Nat) : Option Char → List Char → Option (List Char)
  | _, [] => none
  | prev, c :: cs =>
    if optNotWord prev && matchesRun p n (c :: cs) && optNotWord ((c :: cs).get? n) then
      some ((c :: cs).take n)
    else searchBRunAux p n (some c) cs

/-- Leftmost word-boundary-delimited `n`-run of class `p` (models
`re.search(r"\b\d{n}\b", s)` when the class is digits). -/
def searchBRun (p : Char → Bool) (n : Nat) (l : List Char) : Option (List Char) :=
  searchBRunAux p n none l

/-- A passport match begins here: previous neighbour is not a word
character, then one uppercase letter, seven digits, and a non-word (or
absent) follower. -/
def passportHere (prev : Option Char) (l : List Char) : Bool :=
  optNotWord prev &&
    (match l with
     | c :: rest => c.isUpper && matchesRun Char.isDigit 7 rest && optNotWord (rest.get? 7)
     | [] => false)

/-- Auxiliary for `searchPassport`. -/
def searchPassportAux : Option Char → List Char → Option (List Char)
  | _, [] => none
  | prev, c :: cs =>
    if passportHere prev (c :: cs) then some ((c :: cs).take 8)
    else searchPassportAux (some c) cs

/-- Leftmost match of `passport_pattern = \b[A-Z][0-9]{7}\b`. -/
def searchPassport (l : List Char) : Option (List Char) := searchPassportAux none l

/-! ### Index-quantified matchers for the email and UPI patterns -/

/-- Character at index `i` exists and satisfies `p`. -/
def isCharAt (l : List Char) (i : Nat) (p : Char → Bool) : Bool :=
  match l.get? i with
  | some c => p c
  | none => false

/-- Character at index `i` exists and is a word character. -/
def wordAt (l : List Char) (i : Nat) : Bool := isCharAt l i wordCharB

/-- Word-character status of the character just before index `i`
(the string edge counts as non-word). -/
def prevWordAt (l : List Char) (i : Nat) : Bool :=
  match i with
  | 0 => false
  | Nat.succ j => wordAt l j

/-- A `\b` word boundary sits between indices `i - 1` and `i`. -/
def boundaryAt (l : List Char) (i : Nat) : Bool := prevWordAt l i != wordAt l i

/-- Existence of a match of
`email_pattern = [A-Za-z0-9._%+-]+@[A-Za-z0-9.-]+\.[A-Za-z]{2,}`
anywhere in the string: some `@` at index `j` with a local-class character
right before it, and some literal `.` at index `d ≥ j + 2` preceded by a
nonempty run of domain-class characters and followed by two letters. -/
def emailSearch (s : String) : Bool :=
  let l := s.data
  (List.range l.length).any fun j =>
    isCharAt l j (fun c => c == '@') && decide (1 ≤ j) && isCharAt l (j - 1) emailLocalClass &&
    ((List.range (l.length + 1)).any fun d =>
      decide (j + 2 ≤ d) &&
      ((List.range (d - (j + 1))).all fun t => isCharAt l (j + 1 + t) emailDomainClass) &&
      isCharAt l d (fun c => c == '.') &&
      isCharAt l (d + 1) Char.isAlpha && isCharAt l (d + 2) Char.isAlpha)

/-- Existence of a match of
`upi_pattern = \b[a-zA-Z0-9._-]{2,}@[a-zA-Z]{2,}\b`
anywhere in the string: an `@` at index `j`, a run of at least two
local-class characters from some boundary index `i` up to `j`, and at least
two letters after the `@` ending at an index `e` that is followed by a word
boundary. -/
def upiSearch (s : String) : Bool :=
  let l := s.data
  (List.range l.length).any fun j =>
    isCharAt l j (fun c => c == '@') &&
    ((List.range j).any fun i =>
      decide (i + 2 ≤ j) && boundaryAt l i &&
      ((List.range (j - i)).all fun t => isCharAt l (i + t) upiLocalClass)) &&
    ((List.range l.length).any fun e =>
      decide (j + 2 ≤ e) && boundaryAt l (e + 1) &&
      ((List.range (e - j)).all fun t => isCharAt l (j + 1 + t) Char.isAlpha))

/-! ### String helpers modelling Python string methods -/

/-- Fuel-indexed worker for `replaceAll`; the fuel dominates the number of
characters still to be consumed. -/
def replaceAllFuel (pat repl : List Char) : Nat → List Char → List Char
  | 0, l => l
  | _ + 1, [] => []
  | fuel + 1, c :: cs =>
    if !pat.isEmpty && pat.isPrefixOf (c :: cs) then
      repl ++ replaceAllFuel pat repl fuel (List.drop (pat.length - 1) cs)
    else
      c :: replaceAllFuel pat repl fuel cs

/-- Python's `str.replace(pat, repl)`: replace every non-overlapping
occurrence of `pat`, scanning left to right. -/
def replaceAll (pat repl l : List Char) : List Char :=
  replaceAllFuel pat repl l.length l

/-- Split at the first occurrence of `ch`, as in Python's
`s.split(ch, 1)`; `none` when `ch` does not occur. -/
def splitFirstAt (ch : Char) : List Char → Option (List Char × List Char)
  | [] => none
  | c :: cs =>
    if c == ch then some ([], cs)
    else
      match splitFirstAt ch cs with
      | some p => some (c :: p.1, p.2)
      | none => none

/-- Split on every `'.'`, keeping empty segments, as in Python's
`s.split(".")`. -/
def splitDot : List Char → List (List Char)
  | [] => [[]]
  | c :: cs =>
    if c == '.' then [] :: splitDot cs
    else
      match splitDot cs with
      | h :: t => (c :: h) :: t
      | [] => [[c]]

/-- Worker for `splitWs`: accumulates the current (reversed) token. -/
def splitWsAux : List Char → List Char → List (List Char)
  | cur, [] => if cur.isEmpty then [] else [cur.reverse]
  | cur, c :: cs =>
    if c.isWhitespace then
      if cur.isEmpty then splitWsAux [] cs else cur.reverse :: splitWsAux [] cs
    else
      splitWsAux (c :: cur) cs

/-- Python's `str.split()`: maximal whitespace-free tokens, no empties. -/
def splitWs (l : List Char) : List (List Char) := splitWsAux [] l

/-- Python's `str.strip()` (ASCII whitespace). -/
def stripChars (l : List Char) : List Char :=
  ((l.dropWhile Char.isWhitespace).reverse.dropWhile Char.isWhitespace).reverse

/-! ### The masking functions of the source -/

/-- Model of `obfuscate_phone_number`: find the first unanchored 10-digit run; if
none, return the value; otherwise replace every occurrence of the matched
run by its first 2 digits, six `X`, and its last 2 digits. -/
def obfuscate_phone_number (s : String) : String :=
  match searchRun Char.isDigit 10 s.data with
  | none => s
  | some m =>
    String.mk (replaceAll m (m.take 2 ++ List.replicate 6 'X' ++ m.drop 8) s.data)

/-- Model of `obfuscate_aadhaar_number`: first unanchored 12-digit run; keep first 4
and last 4 digits, four `X` in between. -/
def obfuscate_aadhaar_number (s : String) : String :=
  match searchRun Char.isDigit 12 s.data with
  | none => s
  | some m =>
    String.mk (replaceAll m (m.take 4 ++ List.replicate 4 'X' ++ m.drop 8) s.data)

/-- Model of `obfuscate_passport_number`: first match of the bounded passport
pattern; keep the leading letter, seven `X` after it. -/
def obfuscate_passport_number (s : String) : String :=
  match searchPassport s.data with
  | none => s
  | some m =>
    String.mk (replaceAll m (m.take 1 ++ List.replicate 7 'X') s.data)

/-- Model of `obfuscate_upi_identifier`: split at the first `@`; no `@` gives the
generic sentinel; local part of length at most 2 becomes `XX`, otherwise
its first 2 characters followed by `XXX`; the domain is kept verbatim. -/
def obfuscate_upi_identifier (s : String) : String :=
  match splitFirstAt '@' s.data with
  | none => "[REDACTED_PII]"
  | some (u, d) =>
    String.mk ((if u.length ≤ 2 then ['X', 'X'] else u.take 2 ++ ['X', 'X', 'X']) ++ '@' :: d)

/-- Model of `obfuscate_email_address`: same local-part rule as the UPI masker, but
a value without `@` is returned unchanged. -/
def obfuscate_email_address (s : String) : String :=
  match splitFirstAt '@' s.data with
  | none => s
  | some (u, d) =>
    String.mk ((if u.length ≤ 2 then ['X', 'X'] else u.take 2 ++ ['X', 'X', 'X']) ++ '@' :: d)

/-- Model of `obfuscate_personal_name`: for each whitespace-delimited token keep the
first character and replace the rest by `X`, joining with single spaces. -/
def obfuscate_personal_name (s : String) : String :=
  String.mk (List.intercalate [' ']
    ((splitWs s.data).map fun t => t.take 1 ++ List.replicate (t.length - 1) 'X'))

/-- Model of `obfuscate_physical_address`: keep the first 3 characters followed by
`XXX` when the value has at least 3 characters, plain `XXX` otherwise, then
a literal `...`; a word-bounded 6-digit postal code found anywhere in the
value is appended verbatim after `", "`. -/
def obfuscate_physical_address (s : String) : String :=
  let postal := searchBRun Char.isDigit 6 s.data
  let pre := if 3 ≤ s.data.length then s.data.take 3 ++ ['X', 'X', 'X'] else ['X', 'X', 'X']
  String.mk (pre ++ ['.', '.', '.'] ++
    (match postal with
     | some p => [',', ' '] ++ p
     | none => []))

/-- Model of `obfuscate_ip_address`: split on `.`; exactly four parts keep the first
and last octet with `XXX` for the middle two; anything else gives the
generic sentinel (the Python unpacking failure is caught). -/
def obfuscate_ip_address (s : String) : String :=
  match splitDot s.data with
  | [a, _, _, d] =>
    String.mk (a ++ ['.', 'X', 'X', 'X', '.', 'X', 'X', 'X', '.'] ++ d)
  | _ => "[REDACTED_PII]"

/-- Model of `obfuscate_device_identifier`: values of stringified length at most 6
become `XXXXXX`; otherwise keep the first 3 and last 3 characters with
`XXX` in between. -/
def obfuscate_device_identifier (s : String) : String :=
  if s.data.length ≤ 6 then "XXXXXX"
  else String.mk (s.data.take 3 ++ ['X', 'X', 'X'] ++ s.data.drop (s.data.length - 3))

/-! ### The data model: values and records -/

/-- A JSON-ish record value: text, an integer number, or null.  This is the
value shape the spec's data model assigns to record fields. -/
inductive Value where
  | vStr (s : String)
  | vNum (n : Int)
  | vNull
  deriving DecidableEq, Repr

/-- Python's `str()` coercion used throughout the source before pattern
matching: strings unchanged, numbers in decimal, `None` as `"None"`. -/
def toStr : Value → String
  | Value.vStr s => s
  | Value.vNum n => toString n
  | Value.vNull => "None"

/-- Python truthiness of a record value: nonempty string, nonzero number. -/
def truthy : Value → Bool
  | Value.vStr s => !(s.data.isEmpty)
  | Value.vNum n => decide (n ≠ 0)
  | Value.vNull => false

/-- True exactly on the null value. -/
def isNullV : Value → Bool
  | Value.vNull => true
  | _ => false

/-- A record: an ordered association list from field names to values
(a Python dict, whose keys are unique and ordered). -/
abbrev Record : Type := List (String × Value)

/-- First-match key lookup, i.e. `record[k]` / `k in record`. -/
def lookupField (k : String) : Record → Option Value
  | [] => none
  | p :: rest => if p.1 = k then some p.2 else lookupField k rest

/-- Dict assignment to an existing key: replace the value at every pair
whose key is `k` (on records with unique keys this is `record[k] = v`);
assignment to an absent key never occurs in the modelled code, where every
assignment is guarded by a membership test. -/
def setField (r : Record) (k : String) (v : Value) : Record :=
  r.map fun p => if p.1 = k then (p.1, v) else p

/-- Model of `record.get(k, default)` with default `""`. -/
def getFieldD (r : Record) (k : String) : Value :=
  match lookupField k r with
  | some v => v
  | none => Value.vStr ""

/-! ### The field taxonomy -/

def PHONE_RELATED_FIELDS : List String := ["phone", "contact", "alt_phone", "mobile"]

def AADHAAR_RELATED_FIELDS : List String := ["aadhar", "aadhaar"]

def PASSPORT_RELATED_FIELDS : List String := ["passport"]

def UPI_RELATED_FIELDS : List String := ["upi", "upi_id"]

def EMAIL_RELATED_FIELDS : List String := ["email", "alt_email", "username"]

def FULL_NAME_FIELDS : List String := ["name"]

def GIVEN_NAME_FIELD : String := "first_name"

def SURNAME_FIELD : String := "last_name"

def LOCATION_FIELDS : List String := ["address"]

def NETWORK_IP_FIELDS : List String := ["ip", "ip_address"]

def HARDWARE_ID_FIELDS : List String := ["device_id"]

/-! ### Detection -/

/-- Model of `appears_as_complete_name`: at least two maximal alphabetic runs
(`re.findall(r"[A-Za-z]+", s)` yields at least two tokens).  The worker
counts maximal runs with an in-run flag. -/
def countAlphaRuns (inRun : Bool) : List Char → Nat
  | [] => 0
  | c :: cs =>
    if c.isAlpha then (if inRun then 0 else 1) + countAlphaRuns true cs
    else countAlphaRuns false cs

/-- Model of `appears_as_complete_name(value_str)`. -/
def appears_as_complete_name (s : String) : Bool :=
  decide (2 ≤ countAlphaRuns false s.data)

/-- Model of `contains_complete_address`: a non-empty recognized address field
together with a non-blank city, state or pin-code field or a word-bounded
6-digit postal code inside the address text. -/
def contains_complete_address (r : Record) : Bool :=
  let address_content : String :=
    match lookupField "address" r with
    | some v => if truthy v then String.mk ((toStr v).data ++ [' ']) else ""
    | none => ""
  let city_value := stripChars (toStr (getFieldD r "city")).data
  let state_value := stripChars (toStr (getFieldD r "state")).data
  let postal_value := stripChars (toStr (getFieldD r "pin_code")).data
  !address_content.data.isEmpty &&
    (!city_value.isEmpty || !state_value.isEmpty || !postal_value.isEmpty ||
      (searchBRun Char.isDigit 6 address_content.data).isSome)

/-- Model of `contains_individual_pii`: a standalone identifier in a recognized
phone / aadhaar / passport / UPI field (field names lowercased), with the
word-bounded detection patterns. -/
def contains_individual_pii (r : Record) : Bool :=
  r.any (fun p => PHONE_RELATED_FIELDS.contains (lowerStr p.1) &&
    (searchBRun Char.isDigit 10 (toStr p.2).data).isSome) ||
  r.any (fun p => AADHAAR_RELATED_FIELDS.contains (lowerStr p.1) &&
    (searchBRun Char.isDigit 12 (toStr p.2).data).isSome) ||
  r.any (fun p => PASSPORT_RELATED_FIELDS.contains (lowerStr p.1) &&
    (searchPassport (toStr p.2).data).isSome) ||
  r.any (fun p => UPI_RELATED_FIELDS.contains (lowerStr p.1) &&
    upiSearch (toStr p.2))

/-! ### The combinatorial scorer -/

/-- The full-name signal: the `name` field present, truthy and shaped like
a complete name, or both `first_name` and `last_name` present and truthy.
All lookups are by the exact (case-sensitive) spellings. -/
def has_complete_name (r : Record) : Bool :=
  (match lookupField "name" r with
   | some v => truthy v && appears_as_complete_name (toStr v)
   | none => false) ||
  (match lookupField GIVEN_NAME_FIELD r, lookupField SURNAME_FIELD r with
   | some fv, some lv => truthy fv && truthy lv
   | _, _ => false)

/-- The email signal: a recognized email field present, truthy, and whose
stringified value contains an email-pattern match. -/
def has_email_address (r : Record) : Bool :=
  EMAIL_RELATED_FIELDS.any fun k =>
    match lookupField k r with
    | some v => truthy v && emailSearch (toStr v)
    | none => false

/-- User context for the device-id and IP signals: a complete name, an
email, or any phone-related field name present (regardless of content). -/
def has_user_context (r : Record) : Bool :=
  has_complete_name r || has_email_address r ||
    PHONE_RELATED_FIELDS.any fun k => (lookupField k r).isSome

/-- A device-id field present and truthy. -/
def has_device_id (r : Record) : Bool :=
  HARDWARE_ID_FIELDS.any fun k =>
    match lookupField k r with
    | some v => truthy v
    | none => false

/-- An IP-like field present and truthy. -/
def has_ip_address (r : Record) : Bool :=
  NETWORK_IP_FIELDS.any fun k =>
    match lookupField k r with
    | some v => truthy v
    | none => false

/-- Model of `count_combinatorial_elements`: one point per true signal among full
name, email, complete address, device id with user context, and network
address with user context. -/
def count_combinatorial_elements (r : Record) : Nat :=
  (if has_complete_name r then 1 else 0) +
  (if has_email_address r then 1 else 0) +
  (if contains_complete_address r then 1 else 0) +
  (if has_device_id r && has_user_context r then 1 else 0) +
  (if has_ip_address r && has_user_context r then 1 else 0)

/-! ### The redaction engine -/

/-- Presence of an unanchored 10-digit run, the gate
`re.search(r"\d{10}", value_string)` of the unconditional pass. -/
def hasRun10 (s : String) : Bool := (searchRun Char.isDigit 10 s.data).isSome

/-- Presence of an unanchored 12-digit run, the gate
`re.search(r"\d{12}", value_string)` of the unconditional pass. -/
def hasRun12 (s : String) : Bool := (searchRun Char.isDigit 12 s.data).isSome

/-- One field of the unconditional pass: the four independent `if`
statements of the source, each testing the original stringified value and
overwriting the field (non-null values only; the taxonomy sets are
disjoint, so at most one branch fires). -/
def uncondEntry (k : String) (v : Value) : Value :=
  match v with
  | Value.vNull => Value.vNull
  | _ =>
    let s := toStr v
    let kl := lowerStr k
    let v1 := if PHONE_RELATED_FIELDS.contains kl && hasRun10 s then
        Value.vStr (obfuscate_phone_number s) else v
    let v2 := if AADHAAR_RELATED_FIELDS.contains kl && hasRun12 s then
        Value.vStr (obfuscate_aadhaar_number s) else v1
    let v3 := if PASSPORT_RELATED_FIELDS.contains kl && (searchPassport s.data).isSome then
        Value.vStr (obfuscate_passport_number s) else v2
    let v4 := if UPI_RELATED_FIELDS.contains kl && upiSearch s then
        Value.vStr (obfuscate_upi_identifier s) else v3
    v4

/-- The unconditional pass: every field is rewritten independently (each
loop iteration of the source touches only the key it is visiting). -/
def uncondPass (r : Record) : Record :=
  r.map fun p => (p.1, uncondEntry p.1 p.2)

/-- One step of a conditional redaction loop: when key `k` is present and
its guard holds on the current value, overwrite the field with the masked
value. -/
def maskStep (g : Value → Bool) (f : Value → Value) (acc : Record) (k : String) : Record :=
  match lookupField k acc with
  | some v => if g v then setField acc k (f v) else acc
  | none => acc

/-- The shared shape of the conditional redaction loops: `maskStep` over
each key of `ks` (exact spellings). -/
def maskFold (ks : List String) (g : Value → Bool) (f : Value → Value) (r : Record) : Record :=
  ks.foldl (maskStep g f) r

/-- Conditional pass, email step: recognized email fields that are truthy
and contain an email-pattern match get the email masker. -/
def condEmail (r : Record) : Record :=
  maskFold EMAIL_RELATED_FIELDS
    (fun v => truthy v && emailSearch (toStr v))
    (fun v => Value.vStr (obfuscate_email_address (toStr v))) r

/-- Conditional pass, full-name step. -/
def condName (r : Record) : Record :=
  maskFold FULL_NAME_FIELDS
    (fun v => truthy v && appears_as_complete_name (toStr v))
    (fun v => Value.vStr (obfuscate_personal_name (toStr v))) r

/-- The masking expression `value[0] + "X" * (len(str(value)) - 1)` of the
given-name/surname step.  Python subscripting is only defined on (nonempty)
strings here, so any other shape raises, modelled by `Except.error`. -/
def maskGiven (v : Value) : Except Unit String :=
  match v with
  | Value.vStr s =>
    match s.data with
    | c :: _ => Except.ok (String.mk (c :: List.replicate (s.data.length - 1) 'X'))
    | [] => Except.error ()
  | _ => Except.error ()

/-- Conditional pass, given-name/surname step: when both fields are
present and truthy, both are masked; a non-string value raises. -/
def condGiven (r : Record) : Except Unit Record :=
  match lookupField GIVEN_NAME_FIELD r, lookupField SURNAME_FIELD r with
  | some fv, some lv =>
    if truthy fv && truthy lv then
      match maskGiven fv, maskGiven lv with
      | Except.ok f2, Except.ok l2 =>
        Except.ok (setField (setField r GIVEN_NAME_FIELD (Value.vStr f2)) SURNAME_FIELD (Value.vStr l2))
      | _, _ => Except.error ()
    else Except.ok r
  | _, _ => Except.ok r

/-- Conditional pass, address step (any truthy recognized address field). -/
def condAddress (r : Record) : Record :=
  maskFold LOCATION_FIELDS truthy
    (fun v => Value.vStr (obfuscate_physical_address (toStr v))) r

/-- Conditional pass, IP step (any truthy recognized IP field, no pattern
check). -/
def condIp (r : Record) : Record :=
  maskFold NETWORK_IP_FIELDS truthy
    (fun v => Value.vStr (obfuscate_ip_address (toStr v))) r

/-- Conditional pass, device-id step. -/
def condDevice (r : Record) : Record :=
  maskFold HARDWARE_ID_FIELDS truthy
    (fun v => Value.vStr (obfuscate_device_identifier (toStr v))) r

/-- The conditional redaction pass, in source order: email, full name,
given/surname (which may raise), address, IP, device id. -/
def condPass (r : Record) : Except Unit Record :=
  match condGiven (condName (condEmail r)) with
  | Except.error e => Except.error e
  | Except.ok r3 => Except.ok (condDevice (condIp (condAddress r3)))

/-- Model of `apply_redaction_rules(record_data, is_sensitive_data)`: the
unconditional pass always runs; the conditional pass runs only when the
record is flagged sensitive and the combinatorial score of the original
record is at least 2. -/
def apply_redaction_rules (r : Record) (is_sensitive_data : Bool) : Except Unit Record :=
  if is_sensitive_data && decide (2 ≤ count_combinatorial_elements r) then
    condPass (uncondPass r)
  else Except.ok (uncondPass r)

/-- Per-record core of `execute_processing`: classify (line 278 of the
source), redact, and surface the redacted record with the verdict. -/
def execute_record (r : Record) : Except Unit (Record × Bool) :=
  let is_sensitive_record :=
    contains_individual_pii r || decide (2 ≤ count_combinatorial_elements r)
  match apply_redaction_rules r is_sensitive_record with
  | Except.ok red => Except.ok (red, is_sensitive_record)
  | Except.error e => Except.error e

/-! ### Structural lemmas about records and the passes -/

theorem lookupField_mapEntry (g : String → Value → Value) (k : String) (r : Record) :
    lookupField k (r.map fun p => (p.1, g p.1 p.2)) = (lookupField k r).map (g k) := by
  induction r with
  | nil => rfl
  | cons p rest ih =>
    by_cases h : p.1 = k
    · subst h; simp [lookupField]
    · simp [lookupField, h, ih]

theorem lookupField_uncondPass (k : String) (r : Record) :
    lookupField k (uncondPass r) = (lookupField k r).map (uncondEntry k) :=
  lookupField_mapEntry uncondEntry k r

theorem lookupField_setField_ne {k k2 : String} (h : k2 ≠ k) (r : Record) (v : Value) :
    lookupField k (setField r k2 v) = lookupField k r := by
  induction r with
  | nil => rfl
  | cons p rest ih =>
    show lookupField k ((if p.1 = k2 then (p.1, v) else p) :: setField rest k2 v) = _
    by_cases hp : p.1 = k2
    · rw [if_pos hp]
      have hk : p.1 ≠ k := by rw [hp]; exact h
      show (if p.1 = k then some v else lookupField k (setField rest k2 v))
          = if p.1 = k then some p.2 else lookupField k rest
      rw [if_neg hk, if_neg hk, ih]
    · rw [if_neg hp]
      show (if p.1 = k then some p.2 else lookupField k (setField rest k2 v))
          = if p.1 = k then some p.2 else lookupField k rest
      by_cases hk : p.1 = k
      · rw [if_pos hk, if_pos hk]
      · rw [if_neg hk, if_neg hk, ih]

theorem lookupField_setField_self (k : String) (r : Record) (v : Value) :
    lookupField k (setField r k v) = (lookupField k r).map fun _ => v := by
  induction r with
  | nil => rfl
  | cons p rest ih =>
    show lookupField k ((if p.1 = k then (p.1, v) else p) :: setField rest k v) = _
    by_cases hp : p.1 = k
    · rw [if_pos hp]
      show (if p.1 = k then some v else _) = _
      rw [if_pos hp]
      show _ = Option.map _ (if p.1 = k then some p.2 else lookupField k rest)
      rw [if_pos hp]; rfl
    · rw [if_neg hp]
      show (if p.1 = k then some p.2 else lookupField k (setField rest k v))
          = Option.map _ (if p.1 = k then some p.2 else lookupField k rest)
      rw [if_neg hp, if_neg hp, ih]

theorem keys_setField (r : Record) (k : String) (v : Value) :
    (setField r k v).map Prod.fst = r.map Prod.fst := by
  induction r with
  | nil => rfl
  | cons p rest ih =>
    show (if p.1 = k then (p.1, v) else p).1 :: (setField rest k v).map Prod.fst
        = p.1 :: rest.map Prod.fst
    by_cases hp : p.1 = k
    · rw [if_pos hp, ih]
    · rw [if_neg hp, ih]

theorem maskFold_cons (k : String) (kt : List String) (g : Value → Bool) (f : Value → Value)
    (r : Record) : maskFold (k :: kt) g f r = maskFold kt g f (maskStep g f r k) := rfl

theorem keys_maskFold (ks : List String) (g : Value → Bool) (f : Value → Value) (r : Record) :
    (maskFold ks g f r).map Prod.fst = r.map Prod.fst := by
  induction ks generalizing r with
  | nil => rfl
  | cons k kt ih =>
    rw [maskFold_cons, ih]
    unfold maskStep
    cases hv : lookupField k r with
    | none => rfl
    | some v =>
      show (if g v = true then setField r k (f v) else r).map Prod.fst = r.map Prod.fst
      by_cases hg : g v = true
      · rw [if_pos hg]; exact keys_setField r k (f v)
      · rw [if_neg hg]

theorem keys_uncondPass (r : Record) :
    (uncondPass r).map Prod.fst = r.map Prod.fst := by
  induction r with
  | nil => rfl
  | cons p rest ih =>
    show p.1 :: (uncondPass rest).map Prod.fst = p.1 :: rest.map Prod.fst
    rw [ih]

theorem lookupField_maskFold_notmem {k : String} {ks : List String} (h : k ∉ ks)
    (g : Value → Bool) (f : Value → Value) (r : Record) :
    lookupField k (maskFold ks g f r) = lookupField k r := by
  induction ks generalizing r with
  | nil => rfl
  | cons k2 kt ih =>
    have hne : k2 ≠ k := fun he => h (he ▸ List.mem_cons_self k2 kt)
    have hnt : k ∉ kt := fun hm => h (List.mem_cons_of_mem _ hm)
    rw [maskFold_cons, ih hnt]
    unfold maskStep
    cases hv : lookupField k2 r with
    | none => rfl
    | some v =>
      show lookupField k (if g v = true then setField r k2 (f v) else r) = lookupField k r
      by_cases hg : g v = true
      · rw [if_pos hg]; exact lookupField_setField_ne hne r (f v)
      · rw [if_neg hg]

theorem lookupField_maskFold_skip {k : String} {ks : List String} {r : Record} {v : Value}
    (hnd : ks.Nodup) (hv : lookupField k r = some v)
    {g : Value → Bool} {f : Value → Value} (hg : g v = false) :
    lookupField k (maskFold ks g f r) = some v := by
  induction ks generalizing r with
  | nil => exact hv
  | cons k2 kt ih =>
    have hnd2 : kt.Nodup := (List.nodup_cons.mp hnd).2
    rw [maskFold_cons]
    by_cases he : k2 = k
    · subst he
      have hk2nt : k2 ∉ kt := (List.nodup_cons.mp hnd).1
      have hstep : maskStep g f r k2 = r := by
        unfold maskStep
        rw [hv]
        show (if g v = true then setField r k2 (f v) else r) = r
        rw [hg]
        rfl
      rw [hstep, lookupField_maskFold_notmem hk2nt g f r]; exact hv
    · have hv2 : lookupField k (maskStep g f r k2) = some v := by
        unfold maskStep
        cases hv3 : lookupField k2 r with
        | none => exact hv
        | some v2 =>
          show lookupField k (if g v2 = true then setField r k2 (f v2) else r) = some v
          by_cases hg2 : g v2 = true
          · rw [if_pos hg2, lookupField_setField_ne he r (f v2)]; exact hv
          · rw [if_neg hg2]; exact hv
      exact ih hnd2 hv2

theorem lookupField_condGiven_ne {k : String} (hf : k ≠ GIVEN_NAME_FIELD)
    (hl : k ≠ SURNAME_FIELD) {r out : Record} (h : condGiven r = Except.ok out) :
    lookupField k out = lookupField k r := by
  unfold condGiven at h
  split at h
  · split at h
    · split at h
      · cases h
        rw [lookupField_setField_ne (Ne.symm hl), lookupField_setField_ne (Ne.symm hf)]
      · cases h
    · cases h; rfl
  · cases h; rfl

theorem keys_condGiven {r out : Record} (h : condGiven r = Except.ok out) :
    out.map Prod.fst = r.map Prod.fst := by
  unfold condGiven at h
  split at h
  · split at h
    · split at h
      · cases h; rw [keys_setField, keys_setField]
      · cases h
    · cases h; rfl
  · cases h; rfl

theorem lookupField_condPass_notmem {k : String}
    (h1 : k ∉ EMAIL_RELATED_FIELDS) (h2 : k ∉ FULL_NAME_FIELDS)
    (h3 : k ≠ GIVEN_NAME_FIELD) (h4 : k ≠ SURNAME_FIELD) (h5 : k ∉ LOCATION_FIELDS)
    (h6 : k ∉ NETWORK_IP_FIELDS) (h7 : k ∉ HARDWARE_ID_FIELDS)
    {r out : Record} (hc : condPass r = Except.ok out) :
    lookupField k out = lookupField k r := by
  unfold condPass at hc
  split at hc
  · cases hc
  · rename_i r3 heq
    cases hc
    calc lookupField k (condDevice (condIp (condAddress r3)))
        = lookupField k r3 := by
          unfold condDevice condIp condAddress
          rw [lookupField_maskFold_notmem h7, lookupField_maskFold_notmem h6,
            lookupField_maskFold_notmem h5]
      _ = lookupField k (condName (condEmail r)) := lookupField_condGiven_ne h3 h4 heq
      _ = lookupField k r := by
          unfold condName condEmail
          rw [lookupField_maskFold_notmem h2, lookupField_maskFold_notmem h1]

theorem keys_condPass {r out : Record} (hc : condPass r = Except.ok out) :
    out.map Prod.fst = r.map Prod.fst := by
  unfold condPass at hc
  split at hc
  · cases hc
  · rename_i r3 heq
    cases hc
    calc (condDevice (condIp (condAddress r3))).map Prod.fst
        = r3.map Prod.fst := by
          unfold condDevice condIp condAddress
          rw [keys_maskFold, keys_maskFold, keys_maskFold]
      _ = (condName (condEmail r)).map Prod.fst := keys_condGiven heq
      _ = r.map Prod.fst := by
          unfold condName condEmail
          rw [keys_maskFold, keys_maskFold]

theorem keys_apply_redaction {r : Record} {b : Bool} {out : Record}
    (h : apply_redaction_rules r b = Except.ok out) :
    out.map Prod.fst = r.map Prod.fst := by
  unfold apply_redaction_rules at h
  split at h
  · rw [keys_condPass h, keys_uncondPass]
  · cases h; exact keys_uncondPass r

/-! ### Taxonomy facts -/

theorem mem_of_contains {s : String} {l : List String} (h : l.contains s = true) : s ∈ l :=
  List.elem_iff.mp h

theorem contains_of_mem {s : String} {l : List String} (h : s ∈ l) : l.contains s = true :=
  List.elem_iff.mpr h

/-- A lowercased key recognized by the phone taxonomy is recognized by no
other unconditional category. -/
theorem phone_excl {s : String} (h : PHONE_RELATED_FIELDS.contains s = true) :
    AADHAAR_RELATED_FIELDS.contains s = false ∧ PASSPORT_RELATED_FIELDS.contains s = false ∧
      UPI_RELATED_FIELDS.contains s = false := by
  have hm := mem_of_contains h
  simp only [PHONE_RELATED_FIELDS, List.mem_cons, List.not_mem_nil, or_false] at hm
  rcases hm with h1 | h1 | h1 | h1 <;> subst h1 <;> exact ⟨by decide, by decide, by decide⟩

theorem aadhaar_excl {s : String} (h : AADHAAR_RELATED_FIELDS.contains s = true) :
    PHONE_RELATED_FIELDS.contains s = false ∧ PASSPORT_RELATED_FIELDS.contains s = false ∧
      UPI_RELATED_FIELDS.contains s = false := by
  have hm := mem_of_contains h
  simp only [AADHAAR_RELATED_FIELDS, List.mem_cons, List.not_mem_nil, or_false] at hm
  rcases hm with h1 | h1 <;> subst h1 <;> exact ⟨by decide, by decide, by decide⟩

theorem passport_excl {s : String} (h : PASSPORT_RELATED_FIELDS.contains s = true) :
    PHONE_RELATED_FIELDS.contains s = false ∧ AADHAAR_RELATED_FIELDS.contains s = false ∧
      UPI_RELATED_FIELDS.contains s = false := by
  have hm := mem_of_contains h
  simp only [PASSPORT_RELATED_FIELDS, List.mem_cons, List.not_mem_nil, or_false] at hm
  subst hm; exact ⟨by decide, by decide, by decide⟩

theorem upi_excl {s : String} (h : UPI_RELATED_FIELDS.contains s = true) :
    PHONE_RELATED_FIELDS.contains s = false ∧ AADHAAR_RELATED_FIELDS.contains s = false ∧
      PASSPORT_RELATED_FIELDS.contains s = false := by
  have hm := mem_of_contains h
  simp only [UPI_RELATED_FIELDS, List.mem_cons, List.not_mem_nil, or_false] at hm
  rcases hm with h1 | h1 <;> subst h1 <;> exact ⟨by decide, by decide, by decide⟩

/-- A key whose lowercasing is recognized by one of the four unconditional
categories is none of the exact spellings touched by the conditional pass. -/
theorem uncond_key_not_cond {k : String}
    (h : (PHONE_RELATED_FIELDS.contains (lowerStr k) ||
          AADHAAR_RELATED_FIELDS.contains (lowerStr k) ||
          PASSPORT_RELATED_FIELDS.contains (lowerStr k) ||
          UPI_RELATED_FIELDS.contains (lowerStr k)) = true) :
    k ∉ EMAIL_RELATED_FIELDS ∧ k ∉ FULL_NAME_FIELDS ∧ k ≠ GIVEN_NAME_FIELD ∧
      k ≠ SURNAME_FIELD ∧ k ∉ LOCATION_FIELDS ∧ k ∉ NETWORK_IP_FIELDS ∧
      k ∉ HARDWARE_ID_FIELDS := by
  refine ⟨?_, ?_, ?_, ?_, ?_, ?_, ?_⟩ <;> intro hm
  case _ =>
    simp only [EMAIL_RELATED_FIELDS, List.mem_cons, List.not_mem_nil, or_false] at hm
    rcases hm with h1 | h1 | h1 <;> subst h1 <;> revert h <;> decide
  case _ =>
    simp only [FULL_NAME_FIELDS, List.mem_cons, List.not_mem_nil, or_false] at hm
    subst hm; revert h; decide
  case _ => subst hm; revert h; decide
  case _ => subst hm; revert h; decide
  case _ =>
    simp only [LOCATION_FIELDS, List.mem_cons, List.not_mem_nil, or_false] at hm
    subst hm; revert h; decide
  case _ =>
    simp only [NETWORK_IP_FIELDS, List.mem_cons, List.not_mem_nil, or_false] at hm
    rcases hm with h1 | h1 <;> subst h1 <;> revert h <;> decide
  case _ =>
    simp only [HARDWARE_ID_FIELDS, List.mem_cons, List.not_mem_nil, or_false] at hm
    subst hm; revert h; decide

theorem not_mem_of_contains_false {s : String} {l : List String}
    (h : l.contains s = false) : s ∉ l :=
  fun hm => by rw [contains_of_mem hm] at h; exact Bool.noConfusion h

/-! ### Evaluation of the unconditional pass on one field -/

theorem uncondEntry_id {k : String} (v : Value)
    (h1 : PHONE_RELATED_FIELDS.contains (lowerStr k) = false)
    (h2 : AADHAAR_RELATED_FIELDS.contains (lowerStr k) = false)
    (h3 : PASSPORT_RELATED_FIELDS.contains (lowerStr k) = false)
    (h4 : UPI_RELATED_FIELDS.contains (lowerStr k) = false) :
    uncondEntry k v = v := by
  have n1 := not_mem_of_contains_false h1
  have n2 := not_mem_of_contains_false h2
  have n3 := not_mem_of_contains_false h3
  have n4 := not_mem_of_contains_false h4
  cases v <;> simp [uncondEntry, n1, n2, n3, n4]

theorem uncondEntry_phone {k : String} {v : Value} (hv : v ≠ Value.vNull)
    (hm : PHONE_RELATED_FIELDS.contains (lowerStr k) = true)
    (hr : hasRun10 (toStr v) = true) :
    uncondEntry k v = Value.vStr (obfuscate_phone_number (toStr v)) := by
  obtain ⟨e1, e2, e3⟩ := phone_excl hm
  have n1 := not_mem_of_contains_false e1
  have n2 := not_mem_of_contains_false e2
  have n3 := not_mem_of_contains_false e3
  cases v with
  | vNull => exact absurd rfl hv
  | vStr s => simp [uncondEntry, mem_of_contains hm, hr, n1, n2, n3]
  | vNum n => simp [uncondEntry, mem_of_contains hm, hr, n1, n2, n3]

theorem uncondEntry_aadhaar {k : String} {v : Value} (hv : v ≠ Value.vNull)
    (hm : AADHAAR_RELATED_FIELDS.contains (lowerStr k) = true)
    (hr : hasRun12 (toStr v) = true) :
    uncondEntry k v = Value.vStr (obfuscate_aadhaar_number (toStr v)) := by
  obtain ⟨e1, e2, e3⟩ := aadhaar_excl hm
  have n1 := not_mem_of_contains_false e1
  have n2 := not_mem_of_contains_false e2
  have n3 := not_mem_of_contains_false e3
  cases v with
  | vNull => exact absurd rfl hv
  | vStr s => simp [uncondEntry, mem_of_contains hm, hr, n1, n2, n3]
  | vNum n => simp [uncondEntry, mem_of_contains hm, hr, n1, n2, n3]

theorem uncondEntry_passport {k : String} {v : Value} (hv : v ≠ Value.vNull)
    (hm : PASSPORT_RELATED_FIELDS.contains (lowerStr k) = true)
    (hr : (searchPassport (toStr v).data).isSome = true) :
    uncondEntry k v = Value.vStr (obfuscate_passport_number (toStr v)) := by
  obtain ⟨e1, e2, e3⟩ := passport_excl hm
  have n1 := not_mem_of_contains_false e1
  have n2 := not_mem_of_contains_false e2
  have n3 := not_mem_of_contains_false e3
  cases v with
  | vNull => exact absurd rfl hv
  | vStr s => simp [uncondEntry, mem_of_contains hm, hr, n1, n2, n3]
  | vNum n => simp [uncondEntry, mem_of_contains hm, hr, n1, n2, n3]

theorem uncondEntry_upi {k : String} {v : Value} (hv : v ≠ Value.vNull)
    (hm : UPI_RELATED_FIELDS.contains (lowerStr k) = true)
    (hr : upiSearch (toStr v) = true) :
    uncondEntry k v = Value.vStr (obfuscate_upi_identifier (toStr v)) := by
  obtain ⟨e1, e2, e3⟩ := upi_excl hm
  have n1 := not_mem_of_contains_false e1
  have n2 := not_mem_of_contains_false e2
  have n3 := not_mem_of_contains_false e3
  cases v with
  | vNull => exact absurd rfl hv
  | vStr s => simp [uncondEntry, mem_of_contains hm, hr, n1, n2, n3]
  | vNum n => simp [uncondEntry, mem_of_contains hm, hr, n1, n2, n3]

/-! ### Claim theorems -/

/-- C1: for every record and every field whose lowercased name is in the
PHONE, NATIONAL_ID (aadhaar), PASSPORT, or PAYMENT_HANDLE (UPI) taxonomy
and whose value matches that category's gating pattern,
`apply_redaction_rules` replaces that field's value with the category's
masked form in the output record, for both `is_pii = true` and
`is_pii = false`. -/
theorem C1_uncond_pass_always_masks {r : Record} {b : Bool} {k : String} {v : Value}
    {out : Record} (hv : lookupField k r = some v) (hn : v ≠ Value.vNull)
    (hout : apply_redaction_rules r b = Except.ok out) :
    (PHONE_RELATED_FIELDS.contains (lowerStr k) = true → hasRun10 (toStr v) = true →
      lookupField k out = some (Value.vStr (obfuscate_phone_number (toStr v)))) ∧
    (AADHAAR_RELATED_FIELDS.contains (lowerStr k) = true → hasRun12 (toStr v) = true →
      lookupField k out = some (Value.vStr (obfuscate_aadhaar_number (toStr v)))) ∧
    (PASSPORT_RELATED_FIELDS.contains (lowerStr k) = true →
      (searchPassport (toStr v).data).isSome = true →
      lookupField k out = some (Value.vStr (obfuscate_passport_number (toStr v)))) ∧
    (UPI_RELATED_FIELDS.contains (lowerStr k) = true → upiSearch (toStr v) = true →
      lookupField k out = some (Value.vStr (obfuscate_upi_identifier (toStr v)))) := by
  have base : lookupField k (uncondPass r) = some (uncondEntry k v) := by
    rw [lookupField_uncondPass, hv]; rfl
  have step : (PHONE_RELATED_FIELDS.contains (lowerStr k) ||
      AADHAAR_RELATED_FIELDS.contains (lowerStr k) ||
      PASSPORT_RELATED_FIELDS.contains (lowerStr k) ||
      UPI_RELATED_FIELDS.contains (lowerStr k)) = true →
      lookupField k out = some (uncondEntry k v) := by
    intro hdisj
    obtain ⟨c1, c2, c3, c4, c5, c6, c7⟩ := uncond_key_not_cond hdisj
    unfold apply_redaction_rules at hout
    split at hout
    · rw [lookupField_condPass_notmem c1 c2 c3 c4 c5 c6 c7 hout]; exact base
    · cases hout; exact base
  refine ⟨fun hm hr => ?_, fun hm hr => ?_, fun hm hr => ?_, fun hm hr => ?_⟩
  · rw [step (by simp [mem_of_contains hm]), uncondEntry_phone hn hm hr]
  · rw [step (by simp [mem_of_contains hm]), uncondEntry_aadhaar hn hm hr]
  · rw [step (by simp [mem_of_contains hm]), uncondEntry_passport hn hm hr]
  · rw [step (by simp [mem_of_contains hm]), uncondEntry_upi hn hm hr]

/-- Witness for C1 at a concrete phone record, with the verdict flag false:
the field is masked anyway. -/
theorem C1_uncond_pass_always_masks_witness :
    apply_redaction_rules [("phone", Value.vStr "9876543210")] false
      = Except.ok [("phone", Value.vStr "98XXXXXX10")] ∧
    lookupField "phone" [("phone", Value.vStr "98XXXXXX10")]
      = some (Value.vStr (obfuscate_phone_number (toStr (Value.vStr "9876543210")))) :=
  ⟨rfl,
    (C1_uncond_pass_always_masks (r := [("phone", Value.vStr "9876543210")])
      (b := false) (k := "phone") (v := Value.vStr "9876543210")
      rfl (by decide) rfl).1 (by decide) (by decide)⟩

/-- C2: for every record the verdict surfaced by the processing core is the
disjunction of the standalone detector and the combinatorial score being at
least 2. -/
theorem C2_verdict_is_disjunction {r red : Record} {b : Bool}
    (h : execute_record r = Except.ok (red, b)) :
    b = true ↔ (contains_individual_pii r = true ∨ 2 ≤ count_combinatorial_elements r) := by
  simp only [execute_record] at h
  split at h
  · cases h
    simp [Bool.or_eq_true, decide_eq_true_eq]
  · cases h

/-- Witness for C2 at a concrete standalone-phone record. -/
theorem C2_verdict_is_disjunction_witness :
    execute_record [("phone", Value.vStr "9876543210")]
      = Except.ok ([("phone", Value.vStr "98XXXXXX10")], true) ∧
    (true = true ↔ (contains_individual_pii [("phone", Value.vStr "9876543210")] = true ∨
      2 ≤ count_combinatorial_elements [("phone", Value.vStr "9876543210")])) :=
  ⟨rfl, C2_verdict_is_disjunction rfl⟩

/-- C3 (code bug): `apply_redaction_rules` is claimed total over records of
string, number, or null values, but the given-name/surname masking
subscripts the raw value, so a record with numeric `first_name` and
`last_name` plus an email (score 2) makes the call raise (here:
`Except.error`). -/
theorem C3_redaction_raises_on_numeric_name :
    apply_redaction_rules
      [("first_name", Value.vNum 12), ("last_name", Value.vNum 5),
       ("email", Value.vStr "ab@mail.com")] true = Except.error () := rfl

/-- C4 counterexample: the scorer's email check does not recognize a field
regardless of the case of its name — a record whose only field is `Email`
(recognized case-insensitively by the taxonomy, value matching the email
pattern) still scores 0. -/
theorem C4_scorer_case_sensitive_counterexample :
    count_combinatorial_elements [("Email", Value.vStr "ab@mail.com")] = 0 ∧
    EMAIL_RELATED_FIELDS.contains (lowerStr "Email") = true ∧
    emailSearch (toStr (Value.vStr "ab@mail.com")) = true :=
  ⟨rfl, rfl, rfl⟩

/-- Rename the keys of a record pointwise. -/
def renameKeys (f : String → String) (r : Record) : Record :=
  r.map fun p => (f p.1, p.2)

theorem uncondEntry_lower_congr {k1 k2 : String} (h : lowerStr k1 = lowerStr k2)
    (v : Value) : uncondEntry k1 v = uncondEntry k2 v := by
  cases v <;> simp [uncondEntry, h]

/-- C4 amended: case-insensitive field matching holds in the standalone
detector and the unconditional redaction pass (phone, aadhaar, passport,
UPI): both are invariant under any key renaming that preserves the
lowercased spelling.  The combinatorial scorer's checks, by contrast, match
exact lowercase spellings only (see the counterexample). -/
theorem C4_amended_case_insensitivity (f : String → String)
    (hf : ∀ k, lowerStr (f k) = lowerStr k) (r : Record) :
    contains_individual_pii (renameKeys f r) = contains_individual_pii r ∧
    uncondPass (renameKeys f r) = renameKeys f (uncondPass r) := by
  constructor
  · have inv : ∀ q : String × Value → Bool, (∀ p : String × Value, q (f p.1, p.2) = q p) →
        (renameKeys f r).any q = r.any q := by
      intro q hq
      induction r with
      | nil => rfl
      | cons p rest ih =>
        show (q (f p.1, p.2) || (renameKeys f rest).any q) = (q p || rest.any q)
        rw [hq p, ih]
    unfold contains_individual_pii
    rw [inv _ (fun p => by simp [hf]), inv _ (fun p => by simp [hf]),
      inv _ (fun p => by simp [hf]), inv _ (fun p => by simp [hf])]
  · unfold uncondPass renameKeys
    rw [List.map_map, List.map_map]
    refine List.map_congr_left fun p _ => ?_
    simp only [Function.comp]
    rw [uncondEntry_lower_congr (hf p.1) p.2]

/-- Witness for C4 amended: renaming `email` to `Email` (same lowercase)
leaves the standalone detector and the unconditional pass unchanged. -/
theorem C4_amended_case_insensitivity_witness :
    contains_individual_pii (renameKeys (fun s => if s = "email" then "Email" else s)
        [("email", Value.vStr "ab@mail.com")])
      = contains_individual_pii [("email", Value.vStr "ab@mail.com")] ∧
    uncondPass (renameKeys (fun s => if s = "email" then "Email" else s)
        [("email", Value.vStr "ab@mail.com")])
      = renameKeys (fun s => if s = "email" then "Email" else s)
          (uncondPass [("email", Value.vStr "ab@mail.com")]) :=
  C4_amended_case_insensitivity _
    (fun k => by
      by_cases h : k = "email"
      · subst h; decide
      · simp [h])
    [("email", Value.vStr "ab@mail.com")]

/-- C10: the unconditional pass is gated by an unanchored digit-run search
while the standalone detector uses word-bounded patterns; a phone field
holding an 11-digit run is rewritten by the redaction engine while
`contains_individual_pii` is false, so the record is modified yet carries
verdict false. -/
theorem C10_modified_yet_verdict_false :
    contains_individual_pii [("phone", Value.vStr "12345678901")] = false ∧
    execute_record [("phone", Value.vStr "12345678901")]
      = Except.ok ([("phone", Value.vStr "12XXXXXX901")], false) ∧
    Value.vStr "12XXXXXX901" ≠ Value.vStr "12345678901" :=
  ⟨rfl, rfl, by decide⟩

/-! ### C5: address masking -/

theorem searchBRunAux_spec {p : Char → Bool} {n : Nat} :
    ∀ (l : List Char) (prev : Option Char) (m : List Char),
      searchBRunAux p n prev l = some m →
      m.length = n ∧ m.all p = true ∧ List.IsInfix m l := by
  intro l
  induction l with
  | nil => intro prev m h; cases h
  | cons c cs ih =>
    intro prev m h
    unfold searchBRunAux at h
    split at h
    · rename_i hg
      cases h
      simp only [Bool.and_eq_true, matchesRun, decide_eq_true_eq] at hg
      obtain ⟨⟨-, hlen, hall⟩, -⟩ := hg
      refine ⟨?_, hall, ⟨[], List.drop n (c :: cs), by simp⟩⟩
      rw [List.length_take]
      omega
    · obtain ⟨h1, h2, h3⟩ := ih (some c) m h
      exact ⟨h1, h2, List.infix_cons h3⟩

/-- C5 counterexample: on an input shorter than 3 characters the address
masker drops the input characters entirely (prefix is plain `XXX`), instead
of keeping them as the claim states. -/
theorem C5_short_address_counterexample :
    obfuscate_physical_address "ab" = "XXX..." ∧
    obfuscate_physical_address "ab" ≠ "abXXX..." :=
  ⟨rfl, by decide⟩

/-- C5 amended: the address masker returns the first 3 characters followed
by `XXX` when the input has at least 3 characters, and plain `XXX` (the
short input's characters are dropped) otherwise, then the literal `...`;
when the word-bounded 6-digit postal pattern matches, the leftmost match —
a 6-digit all-digit substring of the input — is appended verbatim after
`", "`. -/
theorem C5_amended_address_mask (s : String) :
    (searchBRun Char.isDigit 6 s.data = none →
      obfuscate_physical_address s = String.mk
        ((if 3 ≤ s.data.length then s.data.take 3 ++ ['X', 'X', 'X'] else ['X', 'X', 'X']) ++
          ['.', '.', '.'])) ∧
    (∀ m, searchBRun Char.isDigit 6 s.data = some m →
      obfuscate_physical_address s = String.mk
        ((if 3 ≤ s.data.length then s.data.take 3 ++ ['X', 'X', 'X'] else ['X', 'X', 'X']) ++
          ['.', '.', '.'] ++ (',' :: ' ' :: m)) ∧
      m.length = 6 ∧ m.all Char.isDigit = true ∧ List.IsInfix m s.data) := by
  constructor
  · intro h
    simp [obfuscate_physical_address, h]
  · intro m h
    obtain ⟨h1, h2, h3⟩ := searchBRunAux_spec s.data none m h
    exact ⟨by simp [obfuscate_physical_address, h], h1, h2, h3⟩

/-- Witness for C5 amended at a concrete address carrying a postal code. -/
theorem C5_amended_address_mask_witness :
    obfuscate_physical_address "12 Baker St 560001" = String.mk
      ((if 3 ≤ "12 Baker St 560001".data.length then
          "12 Baker St 560001".data.take 3 ++ ['X', 'X', 'X'] else ['X', 'X', 'X']) ++
        ['.', '.', '.'] ++ (',' :: ' ' :: "560001".data)) ∧
    "560001".data.length = 6 ∧ "560001".data.all Char.isDigit = true ∧
      List.IsInfix "560001".data "12 Baker St 560001".data :=
  (C5_amended_address_mask "12 Baker St 560001").2 "560001".data rfl

/-! ### C8: the `@`-splitting maskers -/

theorem splitFirstAt_eq_none {ch : Char} {l : List Char} (h : ch ∉ l) :
    splitFirstAt ch l = none := by
  induction l with
  | nil => rfl
  | cons c cs ih =>
    have hc : ¬(c == ch) = true := by
      simp only [beq_iff_eq]
      intro he
      exact h (he ▸ List.mem_cons_self c cs)
    have ht : ch ∉ cs := fun hm => h (List.mem_cons_of_mem c hm)
    simp [splitFirstAt, hc, ih ht]

theorem splitFirstAt_eq_some {ch : Char} {u d : List Char} (h : ch ∉ u) :
    splitFirstAt ch (u ++ ch :: d) = some (u, d) := by
  induction u with
  | nil => simp [splitFirstAt]
  | cons c cs ih =>
    have hc : ¬(c == ch) = true := by
      simp only [beq_iff_eq]
      intro he
      exact h (he ▸ List.mem_cons_self c cs)
    have ht : ch ∉ cs := fun hm => h (List.mem_cons_of_mem c hm)
    simp [splitFirstAt, hc, ih ht]

/-- C8: a value without `@` yields the generic sentinel from the UPI masker
but passes through the email masker unchanged; a value `u ++ '@' :: d`
(`u` free of `@`, so the split is at the first `@`) yields, from both
maskers, the domain `d` verbatim after `@`, with local part `XX` when `u`
has at most 2 characters and `u`'s first 2 characters followed by `XXX`
otherwise. -/
theorem C8_at_split_maskers (s : String) :
    ('@' ∉ s.data →
      obfuscate_upi_identifier s = "[REDACTED_PII]" ∧ obfuscate_email_address s = s) ∧
    (∀ u d, s.data = u ++ '@' :: d → '@' ∉ u →
      obfuscate_upi_identifier s = String.mk
        ((if u.length ≤ 2 then ['X', 'X'] else u.take 2 ++ ['X', 'X', 'X']) ++ '@' :: d) ∧
      obfuscate_email_address s = String.mk
        ((if u.length ≤ 2 then ['X', 'X'] else u.take 2 ++ ['X', 'X', 'X']) ++ '@' :: d)) := by
  constructor
  · intro h
    constructor
    · simp [obfuscate_upi_identifier, splitFirstAt_eq_none h]
    · simp [obfuscate_email_address, splitFirstAt_eq_none h]
  · intro u d hs hu
    constructor
    · simp [obfuscate_upi_identifier, hs, splitFirstAt_eq_some hu]
    · simp [obfuscate_email_address, hs, splitFirstAt_eq_some hu]

/-- Witness for C8 at a concrete UPI-style handle. -/
theorem C8_at_split_maskers_witness :
    obfuscate_upi_identifier "user@bank" = String.mk
      ((if ("user".data).length ≤ 2 then ['X', 'X'] else "user".data.take 2 ++ ['X', 'X', 'X']) ++
        '@' :: "bank".data) ∧
    obfuscate_email_address "user@bank" = String.mk
      ((if ("user".data).length ≤ 2 then ['X', 'X'] else "user".data.take 2 ++ ['X', 'X', 'X']) ++
        '@' :: "bank".data) :=
  (C8_at_split_maskers "user@bank").2 "user".data "bank".data rfl (by decide)

/-! ### C7: records with no recognized field -/

/-- Every field-name spelling recognized by any taxonomy category. -/
def allTaxonomySpellings : List String :=
  PHONE_RELATED_FIELDS ++ AADHAAR_RELATED_FIELDS ++ PASSPORT_RELATED_FIELDS ++
    UPI_RELATED_FIELDS ++ EMAIL_RELATED_FIELDS ++ FULL_NAME_FIELDS ++
    [GIVEN_NAME_FIELD, SURNAME_FIELD] ++ LOCATION_FIELDS ++ NETWORK_IP_FIELDS ++
    HARDWARE_ID_FIELDS

theorem contains_eq_false_of_not_mem {s : String} {l : List String} (h : s ∉ l) :
    l.contains s = false := by
  cases hc : l.contains s
  · rfl
  · exact absurd (mem_of_contains hc) h

theorem lookupField_eq_some_mem {k : String} {r : Record} {v : Value}
    (h : lookupField k r = some v) : ∃ p ∈ r, p.1 = k := by
  induction r with
  | nil => cases h
  | cons p rest ih =>
    by_cases hp : p.1 = k
    · exact ⟨p, List.mem_cons_self p rest, hp⟩
    · simp only [lookupField, hp, if_false] at h
      obtain ⟨q, hq, hqk⟩ := ih h
      exact ⟨q, List.mem_cons_of_mem p hq, hqk⟩

theorem lookupField_none_of_excluded {r : Record}
    (h : ∀ p ∈ r, lowerStr p.1 ∉ allTaxonomySpellings) {k : String}
    (hk : lowerStr k ∈ allTaxonomySpellings) : lookupField k r = none := by
  cases hl : lookupField k r with
  | none => rfl
  | some v =>
    obtain ⟨p, hp, hpk⟩ := lookupField_eq_some_mem hl
    exact absurd (hpk ▸ hk) (h p hp)

theorem sub_lists_of_all {s : String} :
    (s ∈ PHONE_RELATED_FIELDS → s ∈ allTaxonomySpellings) ∧
    (s ∈ AADHAAR_RELATED_FIELDS → s ∈ allTaxonomySpellings) ∧
    (s ∈ PASSPORT_RELATED_FIELDS → s ∈ allTaxonomySpellings) ∧
    (s ∈ UPI_RELATED_FIELDS → s ∈ allTaxonomySpellings) := by
  refine ⟨fun h => ?_, fun h => ?_, fun h => ?_, fun h => ?_⟩ <;>
    · simp only [allTaxonomySpellings, List.mem_append]
      tauto

theorem uncondEntry_id_of_excluded {k : String}
    (hk : lowerStr k ∉ allTaxonomySpellings) (v : Value) : uncondEntry k v = v := by
  refine uncondEntry_id v ?_ ?_ ?_ ?_ <;>
    exact contains_eq_false_of_not_mem fun hm => hk (by
      have := @sub_lists_of_all (lowerStr k)
      tauto)

theorem uncondPass_id_of_excluded {r : Record}
    (h : ∀ p ∈ r, lowerStr p.1 ∉ allTaxonomySpellings) : uncondPass r = r := by
  induction r with
  | nil => rfl
  | cons p rest ih =>
    show (p.1, uncondEntry p.1 p.2) :: uncondPass rest = p :: rest
    rw [uncondEntry_id_of_excluded (h p (List.mem_cons_self p rest)) p.2,
      ih fun q hq => h q (List.mem_cons_of_mem p hq)]

theorem contains_individual_pii_of_excluded {r : Record}
    (h : ∀ p ∈ r, lowerStr p.1 ∉ allTaxonomySpellings) :
    contains_individual_pii r = false := by
  have hany : ∀ q : String × Value → Bool, ∀ l : List String,
      (∀ s, s ∈ l → s ∈ allTaxonomySpellings) →
      (∀ p : String × Value, q p = true → l.contains (lowerStr p.1) = true) →
      r.any q = false := by
    intro q l hl hq
    rw [List.any_eq_false]
    intro p hp
    intro hqp
    exact absurd (hl _ (mem_of_contains (hq p hqp))) (h p hp)
  unfold contains_individual_pii
  rw [hany _ PHONE_RELATED_FIELDS (fun s hs => (@sub_lists_of_all s).1 hs)
        (fun p hp => by revert hp; cases hc : PHONE_RELATED_FIELDS.contains (lowerStr p.1) <;> simp [hc]),
      hany _ AADHAAR_RELATED_FIELDS (fun s hs => (@sub_lists_of_all s).2.1 hs)
        (fun p hp => by revert hp; cases hc : AADHAAR_RELATED_FIELDS.contains (lowerStr p.1) <;> simp [hc]),
      hany _ PASSPORT_RELATED_FIELDS (fun s hs => (@sub_lists_of_all s).2.2.1 hs)
        (fun p hp => by revert hp; cases hc : PASSPORT_RELATED_FIELDS.contains (lowerStr p.1) <;> simp [hc]),
      hany _ UPI_RELATED_FIELDS (fun s hs => (@sub_lists_of_all s).2.2.2 hs)
        (fun p hp => by revert hp; cases hc : UPI_RELATED_FIELDS.contains (lowerStr p.1) <;> simp [hc])]
  rfl

theorem count_zero_of_excluded {r : Record}
    (h : ∀ p ∈ r, lowerStr p.1 ∉ allTaxonomySpellings) :
    count_combinatorial_elements r = 0 := by
  have lname : lookupField "name" r = none :=
    lookupField_none_of_excluded h (by decide)
  have lfirst : lookupField "first_name" r = none :=
    lookupField_none_of_excluded h (by decide)
  have llast : lookupField "last_name" r = none :=
    lookupField_none_of_excluded h (by decide)
  have lemail : lookupField "email" r = none :=
    lookupField_none_of_excluded h (by decide)
  have lalt : lookupField "alt_email" r = none :=
    lookupField_none_of_excluded h (by decide)
  have luser : lookupField "username" r = none :=
    lookupField_none_of_excluded h (by decide)
  have laddr : lookupField "address" r = none :=
    lookupField_none_of_excluded h (by decide)
  have lip : lookupField "ip" r = none :=
    lookupField_none_of_excluded h (by decide)
  have lipa : lookupField "ip_address" r = none :=
    lookupField_none_of_excluded h (by decide)
  have ldev : lookupField "device_id" r = none :=
    lookupField_none_of_excluded h (by decide)
  have h1 : has_complete_name r = false := by
    unfold has_complete_name GIVEN_NAME_FIELD SURNAME_FIELD
    rw [lname, lfirst]
    rfl
  have h2 : has_email_address r = false := by
    unfold has_email_address
    show (EMAIL_RELATED_FIELDS.any _) = false
    simp [EMAIL_RELATED_FIELDS, List.any_cons, lemail, lalt, luser]
  have h3 : contains_complete_address r = false := by
    unfold contains_complete_address
    rw [laddr]
    rfl
  have h4 : has_device_id r = false := by
    unfold has_device_id
    simp [HARDWARE_ID_FIELDS, List.any_cons, ldev]
  have h5 : has_ip_address r = false := by
    unfold has_ip_address
    simp [NETWORK_IP_FIELDS, List.any_cons, lip, lipa]
  unfold count_combinatorial_elements
  rw [h1, h2, h3, h4, h5]
  rfl

/-- C7: a record with no field recognized by any taxonomy category
(lowercased names all outside every category's spellings) gets verdict
false and passes through the redaction engine unchanged. -/
theorem C7_unrecognized_record_is_identity (r : Record)
    (h : ∀ p ∈ r, lowerStr p.1 ∉ allTaxonomySpellings) :
    execute_record r = Except.ok (r, false) := by
  have hc := contains_individual_pii_of_excluded h
  have hz := count_zero_of_excluded h
  have happ : apply_redaction_rules r (contains_individual_pii r ||
      decide (2 ≤ count_combinatorial_elements r)) = Except.ok r := by
    unfold apply_redaction_rules
    rw [hz, hc]
    show Except.ok (uncondPass r) = Except.ok r
    rw [uncondPass_id_of_excluded h]
  simp only [execute_record]
  rw [happ, hc, hz]
  rfl

/-- Witness for C7: a record holding only unrecognized fields. -/
theorem C7_unrecognized_record_is_identity_witness :
    execute_record [("city", Value.vStr "Metropolis"), ("notes", Value.vStr "hello")]
      = Except.ok ([("city", Value.vStr "Metropolis"), ("notes", Value.vStr "hello")], false) :=
  C7_unrecognized_record_is_identity _ (by decide)

/-! ### C6: score bound and the single-signal case -/

/-- The exact spellings of the quasi-identifier fields touched by the
conditional pass. -/
def quasiIdentifierFields : List String :=
  EMAIL_RELATED_FIELDS ++ FULL_NAME_FIELDS ++ [GIVEN_NAME_FIELD, SURNAME_FIELD] ++
    LOCATION_FIELDS ++ NETWORK_IP_FIELDS ++ HARDWARE_ID_FIELDS

theorem quasi_key_not_uncond {k : String} (hk : k ∈ quasiIdentifierFields) :
    PHONE_RELATED_FIELDS.contains (lowerStr k) = false ∧
    AADHAAR_RELATED_FIELDS.contains (lowerStr k) = false ∧
    PASSPORT_RELATED_FIELDS.contains (lowerStr k) = false ∧
    UPI_RELATED_FIELDS.contains (lowerStr k) = false := by
  have hall : quasiIdentifierFields.all (fun s =>
      !PHONE_RELATED_FIELDS.contains (lowerStr s) &&
      !AADHAAR_RELATED_FIELDS.contains (lowerStr s) &&
      !PASSPORT_RELATED_FIELDS.contains (lowerStr s) &&
      !UPI_RELATED_FIELDS.contains (lowerStr s)) = true := by decide
  have hs := List.all_eq_true.mp hall k hk
  simp only [Bool.and_eq_true, Bool.not_eq_true'] at hs
  exact ⟨hs.1.1.1, hs.1.1.2, hs.1.2, hs.2⟩

/-- C6: the combinatorial score is at most 5 (and at least 0, being a
count); and on a record whose score is exactly 1 the conditional redaction
pass never runs: for every sensitivity flag the engine returns exactly the
unconditional pass's output, in which every quasi-identifier field (name,
given/surname, email fields, address, IP fields, device id) keeps its
original value. -/
theorem C6_score_bound_and_single_signal (r : Record) :
    count_combinatorial_elements r ≤ 5 ∧
    (count_combinatorial_elements r = 1 → ∀ b : Bool,
      apply_redaction_rules r b = Except.ok (uncondPass r) ∧
      ∀ k ∈ quasiIdentifierFields, lookupField k (uncondPass r) = lookupField k r) := by
  constructor
  · cases h1 : has_complete_name r <;> cases h2 : has_email_address r <;>
      cases h3 : contains_complete_address r <;>
      cases h4 : has_device_id r && has_user_context r <;>
      cases h5 : has_ip_address r && has_user_context r <;>
      simp [count_combinatorial_elements, h1, h2, h3, h4, h5]
  · intro h1 b
    constructor
    · unfold apply_redaction_rules
      rw [h1]
      show (if b && false then _ else _) = _
      rw [Bool.and_false]
      rfl
    · intro k hk
      obtain ⟨e1, e2, e3, e4⟩ := quasi_key_not_uncond hk
      rw [lookupField_uncondPass]
      cases hv : lookupField k r with
      | none => rfl
      | some v => simp [uncondEntry_id v e1 e2 e3 e4]

/-- Witness for C6 at a record carrying exactly the full-name signal. -/
theorem C6_score_bound_and_single_signal_witness :
    count_combinatorial_elements [("name", Value.vStr "Asha Verma")] ≤ 5 ∧
    count_combinatorial_elements [("name", Value.vStr "Asha Verma")] = 1 ∧
    apply_redaction_rules [("name", Value.vStr "Asha Verma")] true
      = Except.ok (uncondPass [("name", Value.vStr "Asha Verma")]) ∧
    lookupField "name" (uncondPass [("name", Value.vStr "Asha Verma")])
      = lookupField "name" [("name", Value.vStr "Asha Verma")] :=
  ⟨(C6_score_bound_and_single_signal [("name", Value.vStr "Asha Verma")]).1, rfl,
    ((C6_score_bound_and_single_signal [("name", Value.vStr "Asha Verma")]).2 rfl true).1,
    ((C6_score_bound_and_single_signal [("name", Value.vStr "Asha Verma")]).2 rfl true).2
      "name" (by decide)⟩

/-! ### C9: frame property of the redaction engine -/

/-- The condition under which the unconditional pass overwrites a field:
non-null value whose lowercased key is recognized by one of the four
standalone categories with the category's gating pattern matching. -/
def uncondSelected (k : String) (v : Value) : Bool :=
  !(isNullV v) &&
    ((PHONE_RELATED_FIELDS.contains (lowerStr k) && hasRun10 (toStr v)) ||
     (AADHAAR_RELATED_FIELDS.contains (lowerStr k) && hasRun12 (toStr v)) ||
     (PASSPORT_RELATED_FIELDS.contains (lowerStr k) && (searchPassport (toStr v).data).isSome) ||
     (UPI_RELATED_FIELDS.contains (lowerStr k) && upiSearch (toStr v)))

/-- The guard of the given-name/surname step, on the original record. -/
def givenPairGuard (r : Record) : Bool :=
  match lookupField GIVEN_NAME_FIELD r, lookupField SURNAME_FIELD r with
  | some fv, some lv => truthy fv && truthy lv
  | _, _ => false

/-- The condition under which the conditional pass overwrites field `k`:
the gate holds and `k` is an exact quasi-identifier spelling whose step
guard holds on the record's value. -/
def condSelected (r : Record) (b : Bool) (k : String) : Bool :=
  (b && decide (2 ≤ count_combinatorial_elements r)) &&
    ((EMAIL_RELATED_FIELDS.contains k &&
        (match lookupField k r with
         | some v => truthy v && emailSearch (toStr v)
         | none => false)) ||
     (FULL_NAME_FIELDS.contains k &&
        (match lookupField k r with
         | some v => truthy v && appears_as_complete_name (toStr v)
         | none => false)) ||
     ((k == GIVEN_NAME_FIELD || k == SURNAME_FIELD) && givenPairGuard r) ||
     (LOCATION_FIELDS.contains k &&
        (match lookupField k r with
         | some v => truthy v
         | none => false)) ||
     (NETWORK_IP_FIELDS.contains k &&
        (match lookupField k r with
         | some v => truthy v
         | none => false)) ||
     (HARDWARE_ID_FIELDS.contains k &&
        (match lookupField k r with
         | some v => truthy v
         | none => false)))

theorem and_pat_false {l : List String} {s : String} {p : Bool}
    (h : (l.contains s && p) = false) : ¬(s ∈ l ∧ p = true) := by
  rintro ⟨hm, hp⟩
  rw [contains_of_mem hm, hp] at h
  simp at h

theorem uncondEntry_id_of_not_selected {k : String} {v : Value}
    (h : uncondSelected k v = false) : uncondEntry k v = v := by
  cases v with
  | vNull => rfl
  | vStr s =>
    simp only [uncondSelected, isNullV, Bool.not_false, Bool.true_and,
      Bool.or_eq_false_iff] at h
    obtain ⟨⟨⟨f1, f2⟩, f3⟩, f4⟩ := h
    simp [uncondEntry, and_pat_false f1, and_pat_false f2, and_pat_false f3, and_pat_false f4]
  | vNum n =>
    simp only [uncondSelected, isNullV, Bool.not_false, Bool.true_and,
      Bool.or_eq_false_iff] at h
    obtain ⟨⟨⟨f1, f2⟩, f3⟩, f4⟩ := h
    simp [uncondEntry, and_pat_false f1, and_pat_false f2, and_pat_false f3, and_pat_false f4]

theorem lookup_through_name_email {r : Record} (k0 : String)
    (h1 : k0 ∉ EMAIL_RELATED_FIELDS) (h2 : k0 ∉ FULL_NAME_FIELDS)
    (e1 : PHONE_RELATED_FIELDS.contains (lowerStr k0) = false)
    (e2 : AADHAAR_RELATED_FIELDS.contains (lowerStr k0) = false)
    (e3 : PASSPORT_RELATED_FIELDS.contains (lowerStr k0) = false)
    (e4 : UPI_RELATED_FIELDS.contains (lowerStr k0) = false) :
    lookupField k0 (condName (condEmail (uncondPass r))) = lookupField k0 r := by
  unfold condName condEmail
  rw [lookupField_maskFold_notmem h2, lookupField_maskFold_notmem h1,
    lookupField_uncondPass]
  cases hl : lookupField k0 r with
  | none => rfl
  | some w =>
    show some (uncondEntry k0 w) = some w
    rw [uncondEntry_id w e1 e2 e3 e4]

theorem condGiven_ok_preserves {r2 r3 : Record} (heq : condGiven r2 = Except.ok r3)
    {k : String} {v : Value} (hk2 : lookupField k r2 = some v)
    (hguard : (k = GIVEN_NAME_FIELD ∨ k = SURNAME_FIELD) → givenPairGuard r2 = false) :
    lookupField k r3 = some v := by
  by_cases hkG : k = GIVEN_NAME_FIELD ∨ k = SURNAME_FIELD
  · have hg := hguard hkG
    unfold givenPairGuard at hg
    unfold condGiven at heq
    split at heq
    · rename_i fv lv hfv hlv
      simp only [hfv, hlv] at hg
      rw [hg] at heq
      simp only [Bool.false_eq_true, if_false, Except.ok.injEq] at heq
      rw [← heq]
      exact hk2
    · cases heq
      exact hk2
  · push_neg at hkG
    rw [lookupField_condGiven_ne hkG.1 hkG.2 heq]
    exact hk2

/-- C9: for every record and flag, the record returned by
`apply_redaction_rules` has exactly the same field names in the same order
as the input, and every field selected by neither the unconditional nor the
conditional pass keeps its original value. -/
theorem C9_same_shape_and_untouched_fields (r : Record) (b : Bool) {out : Record}
    (hout : apply_redaction_rules r b = Except.ok out) :
    out.map Prod.fst = r.map Prod.fst ∧
    ∀ k v, lookupField k r = some v → uncondSelected k v = false →
      condSelected r b k = false → lookupField k out = some v := by
  refine ⟨keys_apply_redaction hout, ?_⟩
  intro k v hv hunc hcond
  have hu : lookupField k (uncondPass r) = some v := by
    rw [lookupField_uncondPass, hv]
    show some (uncondEntry k v) = some v
    rw [uncondEntry_id_of_not_selected hunc]
  unfold apply_redaction_rules at hout
  split at hout
  · rename_i hgate
    have hD := hcond
    unfold condSelected at hD
    rw [hgate] at hD
    simp only [Bool.true_and, Bool.or_eq_false_iff] at hD
    obtain ⟨⟨⟨⟨⟨f1, f2⟩, f3⟩, f4⟩, f5⟩, f6⟩ := hD
    have h1 : lookupField k (condEmail (uncondPass r)) = some v := by
      by_cases hkE : k ∈ EMAIL_RELATED_FIELDS
      · have hg : (truthy v && emailSearch (toStr v)) = false := by
          rw [contains_of_mem hkE] at f1
          simp only [Bool.true_and, hv] at f1
          exact f1
        exact lookupField_maskFold_skip (by decide) hu hg
      · unfold condEmail
        rw [lookupField_maskFold_notmem hkE]
        exact hu
    have h2 : lookupField k (condName (condEmail (uncondPass r))) = some v := by
      by_cases hkN : k ∈ FULL_NAME_FIELDS
      · have hg : (truthy v && appears_as_complete_name (toStr v)) = false := by
          rw [contains_of_mem hkN] at f2
          simp only [Bool.true_and, hv] at f2
          exact f2
        exact lookupField_maskFold_skip (by decide) h1 hg
      · unfold condName
        rw [lookupField_maskFold_notmem hkN]
        exact h1
    have hGS2 : givenPairGuard (condName (condEmail (uncondPass r))) = givenPairGuard r := by
      unfold givenPairGuard
      rw [lookup_through_name_email GIVEN_NAME_FIELD (by decide) (by decide) (by decide)
          (by decide) (by decide) (by decide),
        lookup_through_name_email SURNAME_FIELD (by decide) (by decide) (by decide)
          (by decide) (by decide) (by decide)]
    unfold condPass at hout
    split at hout
    · cases hout
    · rename_i r3 heq
      cases hout
      have h3 : lookupField k r3 = some v := by
        refine condGiven_ok_preserves heq h2 fun hkGS => ?_
        rw [hGS2]
        have hb : (k == GIVEN_NAME_FIELD || k == SURNAME_FIELD) = true := by
          rcases hkGS with h | h <;> subst h <;> simp
        rw [hb] at f3
        simpa using f3
      have h4 : lookupField k (condAddress r3) = some v := by
        by_cases hkA : k ∈ LOCATION_FIELDS
        · have hg : truthy v = false := by
            rw [contains_of_mem hkA] at f4
            simp only [Bool.true_and, hv] at f4
            exact f4
          exact lookupField_maskFold_skip (by decide) h3 hg
        · unfold condAddress
          rw [lookupField_maskFold_notmem hkA]
          exact h3
      have h5 : lookupField k (condIp (condAddress r3)) = some v := by
        by_cases hkI : k ∈ NETWORK_IP_FIELDS
        · have hg : truthy v = false := by
            rw [contains_of_mem hkI] at f5
            simp only [Bool.true_and, hv] at f5
            exact f5
          exact lookupField_maskFold_skip (by decide) h4 hg
        · unfold condIp
          rw [lookupField_maskFold_notmem hkI]
          exact h4
      by_cases hkD : k ∈ HARDWARE_ID_FIELDS
      · have hg : truthy v = false := by
          rw [contains_of_mem hkD] at f6
          simp only [Bool.true_and, hv] at f6
          exact f6
        exact lookupField_maskFold_skip (by decide) h5 hg
      · unfold condDevice
        rw [lookupField_maskFold_notmem hkD]
        exact h5
  · cases hout
    exact hu

/-- Witness for C9 at a record with one selected and one untouched field. -/
theorem C9_same_shape_and_untouched_fields_witness :
    ([("phone", Value.vStr "98XXXXXX10"), ("notes", Value.vStr "hi")] : Record).map Prod.fst
      = ([("phone", Value.vStr "9876543210"), ("notes", Value.vStr "hi")] : Record).map Prod.fst ∧
    lookupField "notes" [("phone", Value.vStr "98XXXXXX10"), ("notes", Value.vStr "hi")]
      = some (Value.vStr "hi") :=
  ⟨(C9_same_shape_and_untouched_fields
      [("phone", Value.vStr "9876543210"), ("notes", Value.vStr "hi")] true rfl).1,
    (C9_same_shape_and_untouched_fields
      [("phone", Value.vStr "9876543210"), ("notes", Value.vStr "hi")] true rfl).2
      "notes" (Value.vStr "hi") rfl (by decide) (by decide)⟩
